import Mathlib

/-!
# Verification of the landscape-go-client legacy-action layer

Shallow embedding of the repository's query encoder, legacy-action
invoker, polymorphic result decoder, typed endpoint wrappers and CLI
command layer, together with proofs of the specification's claims.

The client package itself (`client/*.go`) is not present in the source
tree; only its test suite, the CLI command layer and example programs
are.  Definitions embedding the missing client code are therefore
modelled from the specification and carry a doc comment saying so;
definitions for the test server handlers and the CLI layer are
translated directly from the Go source.
-/

/-- JSON values.  Numbers are modelled as integers, which covers every
payload occurring in this repository (script ids and titles). -/
inductive Json where
  | null
  | bool (b : Bool)
  | num (n : Int)
  | str (s : String)
  | arr (elems : List Json)
  | obj (fields : List (String × Json))
deriving Repr

/-- An HTTP response as seen by the client: a status code and an
optional JSON body (`none` models an empty body, as written by
`w.WriteHeader` without a payload). -/
structure HttpResponse where
  statusCode : Nat
  body : Option Json
deriving Repr

/-- An HTTP request at the structured level: method, path and the
query parameters as an association list from names to value sequences
(the shape of Go's `url.Values`). -/
structure HttpRequest where
  method : String
  path : String
  query : List (String × List String)
deriving Repr

/-- `r.URL.Query().Get(k)`: the first value registered for key `k`,
or the empty string when the key is absent or has no values. -/
def queryGet (q : List (String × List String)) (k : String) : String :=
  match q.lookup k with
  | some (v :: _) => v
  | _ => ""

/-- Modelled from the spec: `InvokeLegacyAction` (absent from src — only
its tests and callers are present) "builds a single HTTP request whose
target always includes two mandatory query parameters, `version` (a
fixed API version string) and `action` (the action name), merged with
the caller-supplied parameter map encoded via the Query Encoder" and
"issues exactly one HTTP POST" to the legacy endpoint path. -/
def invokeLegacyRequest (version action : String)
    (params : List (String × List String)) : HttpRequest :=
  { method := "POST"
    path := "/api"
    query := ("version", [version]) :: ("action", [action]) :: params }

/-- Modelled from the spec: the invoker "does not interpret HTTP status
codes as errors"; "the raw HTTP response is always returned when the
network call itself succeeds; network-level failure is the only case
returning an error instead of a response".  The network transport is an
injected collaborator, abstracted as a function from requests to either
a transport error or a raw response. -/
def invokeLegacyAction (net : HttpRequest → Except String HttpResponse)
    (version action : String) (params : List (String × List String)) :
    Except String HttpResponse :=
  net (invokeLegacyRequest version action params)

/-- The legacy-action test server handler, translated from
`legacyHandler` in the test suite (src/unnamed/part_000, lines
107-163).  The method assertion (`t.Fatalf` on non-POST) is a test
harness check, not response behaviour, and is omitted. -/
def legacyHandler (req : HttpRequest) : HttpResponse :=
  if queryGet req.query "version" = "" then
    { statusCode := 400, body := none }
  else if queryGet req.query "action" = "" then
    { statusCode := 400, body := none }
  else
    match queryGet req.query "action" with
    | "CreateScript" =>
        { statusCode := 200
          body := some (.obj [("id", .num 42), ("title", .str (queryGet req.query "title"))]) }
    | "CreateScriptAttachment" =>
        { statusCode := 200, body := some (.str "note.txt") }
    | "EditScript" =>
        { statusCode := 200
          body := some (.obj [("id", .num 42), ("title", .str (queryGet req.query "title"))]) }
    | "CopyScript" =>
        { statusCode := 200
          body := some (.obj [("id", .num 99), ("title", .str (queryGet req.query "destination_title"))]) }
    | "RemoveScript" => { statusCode := 204, body := none }
    | "RemoveScriptAttachment" => { statusCode := 204, body := none }
    | _ => { statusCode := 400, body := none }

/-- The archive endpoint's response, translated from the
`/api/scripts/1:archive` handler in src/unnamed/part_000 (lines
473-478): `w.WriteHeader(http.StatusNoContent)` and no body. -/
def archiveHandlerResponse : HttpResponse :=
  { statusCode := 204, body := none }

/-- The redact endpoint's response, translated from the
`/api/scripts/1:redact` handler in src/unnamed/part_000 (lines
479-484). -/
def redactHandlerResponse : HttpResponse :=
  { statusCode := 204, body := none }

/-- `Creator` of a V1 script: `{id, name, email}`, all optional
(pointer fields in the example program). -/
structure Creator where
  id : Option Int
  name : Option String
  email : Option String
deriving Repr

/-- `V1Script`: `id` and `title` are mandatory; `creator` and
`attachments` are optional and zero-valued when absent. -/
structure V1Script where
  Id : Int
  Title : String
  Creator : Option Creator := none
  Attachments : Option (List String) := none
deriving Repr

/-- `ErrorEnvelope`: `{ message?: string }`, returned on non-2xx,
non-204 responses. -/
structure ErrorEnvelope where
  message : Option String
deriving Repr

/-- Decode an optional string field: absent or `null` yields `none`;
a JSON string yields its value; any other shape is a decode error
(Go's `json.Unmarshal` into `*string`). -/
def getOptString (fields : List (String × Json)) (k : String) :
    Except String (Option String) :=
  match fields.lookup k with
  | none => .ok none
  | some .null => .ok none
  | some (.str s) => .ok (some s)
  | some _ => .error ("json: cannot unmarshal field " ++ k ++ " into string")

/-- Decode an optional integer field, as `getOptString` but for
`*int`. -/
def getOptInt (fields : List (String × Json)) (k : String) :
    Except String (Option Int) :=
  match fields.lookup k with
  | none => .ok none
  | some .null => .ok none
  | some (.num n) => .ok (some n)
  | some _ => .error ("json: cannot unmarshal field " ++ k ++ " into int")

/-- Modelled from the spec: structural decode of the V1 `creator`
object `{id, name, email}`. -/
def decodeCreator (j : Json) : Except String Creator :=
  match j with
  | .obj f => do
      let i ← getOptInt f "id"
      let n ← getOptString f "name"
      let e ← getOptString f "email"
      .ok { id := i, name := n, email := e }
  | _ => .error "json: cannot unmarshal creator into object"

/-- Decode a JSON array of strings (the V1 attachment list printed by
the example program). -/
def decodeStringList (j : Json) : Except String (List String) :=
  match j with
  | .arr xs =>
      xs.mapM fun x =>
        match x with
        | .str s => Except.ok s
        | _ => Except.error "json: cannot unmarshal attachment into string"
  | _ => .error "json: cannot unmarshal attachments into array"

/-- Modelled from the spec: `AsV1Script` (absent from src) attempts a
structural decode into the V1 shape; it "returns a decode error when
the raw bytes are not valid JSON or cannot be coerced into the
requested shape's required fields (id, title are mandatory)", while a
"V2-shaped payload missing V1-only fields will succeed with those
fields left at zero-value"; unknown fields are ignored. -/
def asV1Script (j : Json) : Except String V1Script :=
  match j with
  | .obj fields =>
      match fields.lookup "id", fields.lookup "title" with
      | some (.num i), some (.str t) => do
          let creator ←
            match fields.lookup "creator" with
            | none => Except.ok none
            | some .null => Except.ok none
            | some cj => (decodeCreator cj).map some
          let atts ←
            match fields.lookup "attachments" with
            | none => Except.ok none
            | some .null => Except.ok none
            | some aj => (decodeStringList aj).map some
          .ok { Id := i, Title := t, Creator := creator, Attachments := atts }
      | _, _ => .error "json: missing required fields id and title"
  | _ => .error "json: cannot unmarshal script into object"

/-- Modelled from the spec: the attachment accessor
`AsLegacyScriptAttachment` (absent from src) "attempts to decode the
payload as a bare JSON string; fails if the payload is a JSON
object/array instead". -/
def asLegacyScriptAttachment (j : Json) : Except String String :=
  match j with
  | .str s => .ok s
  | _ => .error "json: cannot unmarshal payload into string"

/-- `true` exactly on `Except.ok` results. -/
def Except.toBoolOk {ε α : Type} : Except ε α → Bool
  | .ok _ => true
  | .error _ => false

/-- `true` exactly on bare JSON strings. -/
def Json.isStr : Json → Bool
  | .str _ => true
  | _ => false

/-- Modelled from the spec: decode of an `ErrorEnvelope`
`{ message?: string }`. -/
def decodeErrorEnvelope (j : Json) : Except String ErrorEnvelope :=
  match j with
  | .obj f => (getOptString f "message").map fun m => { message := m }
  | _ => .error "json: cannot unmarshal error envelope into object"

/-- The typed `GetScriptAttachment` response: raw status and body
alongside the lazily decoded `JSON200` (a bare string payload) and
`JSON404` (an `ErrorEnvelope`). -/
structure GetScriptAttachmentResponse where
  statusCode : Nat
  body : Option Json
  JSON200 : Option String
  JSON404 : Option ErrorEnvelope
deriving Repr

/-- Modelled from the spec: the typed wrapper parses "the body as JSON
into a generic success/error envelope keyed by status code (200 →
success payload type, 404 → ErrorEnvelope)"; any other status is
passed through undecoded. -/
def getScriptAttachmentTyped (resp : HttpResponse) :
    Except String GetScriptAttachmentResponse :=
  if resp.statusCode = 200 then
    match resp.body with
    | some (.str s) =>
        .ok { statusCode := resp.statusCode, body := resp.body
              JSON200 := some s, JSON404 := none }
    | _ => .error "json: cannot unmarshal attachment into string"
  else if resp.statusCode = 404 then
    match resp.body with
    | some j =>
        (decodeErrorEnvelope j).map fun env =>
          { statusCode := resp.statusCode, body := resp.body
            JSON200 := none, JSON404 := some env }
    | none => .error "json: unexpected empty 404 body"
  else
    .ok { statusCode := resp.statusCode, body := resp.body
          JSON200 := none, JSON404 := none }

/-- The typed `InvokeLegacyAction` response: `JSON200` holds the raw
polymorphic success payload (interpreted later by the `As*`
accessors), `JSON404` the decoded error envelope. -/
structure InvokeLegacyActionResponse where
  statusCode : Nat
  body : Option Json
  JSON200 : Option Json
  JSON404 : Option ErrorEnvelope
deriving Repr

/-- Modelled from the spec: `InvokeLegacyActionWithResponse` decodes
the body "into a generic success/error envelope keyed by status code",
"leaving the raw response inspectable in parallel"; "204 responses
carry no body and typed variants for these represent success as an
empty payload, not a parse target". -/
def invokeLegacyActionTyped (resp : HttpResponse) :
    Except String InvokeLegacyActionResponse :=
  if resp.statusCode = 200 then
    match resp.body with
    | some j =>
        .ok { statusCode := resp.statusCode, body := resp.body
              JSON200 := some j, JSON404 := none }
    | none => .error "json: unexpected empty 200 body"
  else if resp.statusCode = 404 then
    match resp.body with
    | some j =>
        (decodeErrorEnvelope j).map fun env =>
          { statusCode := resp.statusCode, body := resp.body
            JSON200 := none, JSON404 := some env }
    | none => .error "json: unexpected empty 404 body"
  else
    .ok { statusCode := resp.statusCode, body := resp.body
          JSON200 := none, JSON404 := none }

/-- The typed archive/redact response: status and raw body only; these
operations have no JSON success variant, so a 204 is represented as an
empty payload with nothing decoded. -/
structure ArchiveScriptResponse where
  statusCode : Nat
  body : Option Json
deriving Repr

/-- Modelled from the spec: the archive/redact typed wrappers perform
no decode — "204 responses carry no body and typed variants for these
represent success as an empty payload, not a parse target". -/
def archiveScriptTyped (resp : HttpResponse) :
    Except String ArchiveScriptResponse :=
  .ok { statusCode := resp.statusCode, body := resp.body }

/-- Bytes that `net/url` leaves unescaped in a query component:
alphanumerics and `-`, `.`, `_`, `~`. -/
def isUnreservedByte (b : Nat) : Bool :=
  (65 ≤ b && b ≤ 90) || (97 ≤ b && b ≤ 122) || (48 ≤ b && b ≤ 57) ||
    b == 45 || b == 46 || b == 95 || b == 126

/-- The upper-case hexadecimal digit for `n < 16`, as a byte
(`"0123456789ABCDEF"`). -/
def hexUpper (n : Nat) : Nat :=
  if n < 10 then 48 + n else 55 + n

/-- Modelled from the spec: percent-escaping of one byte of a query
component, following standard form encoding (`url.QueryEscape`):
space becomes `+` (byte 43), unreserved bytes pass through, every
other byte becomes `%XX` with upper-case hex. -/
def escapeByte (b : Nat) : List Nat :=
  if b == 32 then [43]
  else if isUnreservedByte b then [b]
  else [37, hexUpper (b / 16), hexUpper (b % 16)]

/-- Modelled from the spec: percent-escaping of a whole byte string. -/
def queryEscapeBytes (bs : List Nat) : List Nat :=
  bs.flatMap escapeByte

/-- The numeric value of a hexadecimal digit byte, accepting both
cases (`url.QueryUnescape` does). -/
def hexVal (c : Nat) : Option Nat :=
  if 48 ≤ c ∧ c ≤ 57 then some (c - 48)
  else if 65 ≤ c ∧ c ≤ 70 then some (c - 55)
  else if 97 ≤ c ∧ c ≤ 102 then some (c - 87)
  else none

/-- Modelled from the spec: percent-decoding of a query component
(`url.QueryUnescape`): `%XX` requires two hex digits, `+` decodes to
space, every other byte passes through. -/
def queryUnescape (l : List Nat) : Option (List Nat) :=
  match l with
  | [] => some []
  | b :: rest =>
    if b = 37 then
      match rest with
      | c1 :: c2 :: rest2 =>
        match hexVal c1, hexVal c2 with
        | some h1, some h2 =>
            (queryUnescape rest2).map fun t => (h1 * 16 + h2) :: t
        | _, _ => none
      | _ => none
    else if b = 43 then (queryUnescape rest).map fun t => 32 :: t
    else (queryUnescape rest).map fun t => b :: t
termination_by l.length
decreasing_by
  all_goals simp_wf
  all_goals omega

/-- UTF-8 encoding of a single character (Go strings are UTF-8 byte
strings; escaping operates on the bytes). -/
def utf8EncodeChar (c : Char) : List Nat :=
  let n := c.toNat
  if n < 128 then [n]
  else if n < 2048 then [192 + n / 64, 128 + n % 64]
  else if n < 65536 then [224 + n / 4096, 128 + n / 64 % 64, 128 + n % 64]
  else [240 + n / 262144, 128 + n / 4096 % 64, 128 + n / 64 % 64, 128 + n % 64]

/-- The UTF-8 bytes of a string. -/
def strBytes (s : String) : List Nat :=
  s.data.flatMap utf8EncodeChar

/-- Modelled from the spec: percent-escaping of a string value, on its
UTF-8 bytes. -/
def queryEscapeStr (s : String) : List Nat :=
  queryEscapeBytes (strBytes s)

/-- Ordering of query entries by key (the `sort.Strings` over map keys
inside `url.Values.Encode`). -/
def entryKeyLe (p q : String × List String) : Prop :=
  p.1 ≤ q.1

instance : IsTotal (String × List String) entryKeyLe :=
  ⟨fun a b => le_total a.1 b.1⟩

instance : IsTrans (String × List String) entryKeyLe :=
  ⟨fun _ _ _ h₁ h₂ => le_trans h₁ h₂⟩

instance : DecidableRel entryKeyLe :=
  fun a b => inferInstanceAs (Decidable (a.1 ≤ b.1))

/-- One `key=value` pair of the encoded query. -/
def encodePair (k v : String) : List Nat :=
  queryEscapeStr k ++ 61 :: queryEscapeStr v

/-- All `key=value` pairs of one entry, in the order of its values. -/
def encodeEntry (e : String × List String) : List (List Nat) :=
  e.2.map (encodePair e.1)

/-- Modelled from the spec: the Query Encoder (`url.Values.Encode`
inside the absent `EncodeQueryRequestEditor`): sort entries by key,
escape each key and value, join pairs with `&` (byte 38).  It is a
total function: every input, including empty strings and arbitrary
pre-encoded byte content, is encodable. -/
def encodeQuery (l : List (String × List String)) : List Nat :=
  List.intercalate [38] ((List.insertionSort entryKeyLe l).flatMap encodeEntry)

/-- Parse a non-empty run of decimal digits, accumulating the value;
any non-digit character fails (`strconv.Atoi`'s digit loop). -/
def parseDigitsAux : List Char → Nat → Option Nat
  | [], acc => some acc
  | c :: cs, acc =>
      if c.isDigit then parseDigitsAux cs (acc * 10 + (c.toNat - 48))
      else none

/-- Parse a non-empty all-digit character list. -/
def parseDigits (cs : List Char) : Option Nat :=
  match cs with
  | [] => none
  | _ => parseDigitsAux cs 0

/-- `strconv.Atoi`: an optional sign followed by at least one decimal
digit; fails on the empty string, any non-digit character, and values
outside the 64-bit signed integer range. -/
def atoi (s : String) : Option Int :=
  let signAndDigits : Bool × List Char :=
    match s.data with
    | '+' :: rest => (false, rest)
    | '-' :: rest => (true, rest)
    | cs => (false, cs)
  match parseDigits signAndDigits.2 with
  | none => none
  | some n =>
      if signAndDigits.1 then
        if n ≤ 2 ^ 63 then some (-(n : Int)) else none
      else
        if n < 2 ^ 63 then some (n : Int) else none

/-- The base64 alphabet character for `n < 64`
(`base64.StdEncoding`). -/
def b64Char (n : Nat) : Char :=
  if n < 26 then Char.ofNat (65 + n)
  else if n < 52 then Char.ofNat (97 + (n - 26))
  else if n < 62 then Char.ofNat (48 + (n - 52))
  else if n = 62 then '+'
  else '/'

/-- `base64.StdEncoding` of a byte string: groups of three bytes
become four alphabet characters, with `=` padding. -/
def base64Encode : List Nat → List Char
  | [] => []
  | [b1] => [b64Char (b1 / 4), b64Char (b1 % 4 * 16), '=', '=']
  | [b1, b2] => [b64Char (b1 / 4), b64Char (b1 % 4 * 16 + b2 / 16), b64Char (b2 % 16 * 4), '=']
  | b1 :: b2 :: b3 :: rest =>
      b64Char (b1 / 4) :: b64Char (b1 % 4 * 16 + b2 / 16) ::
        b64Char (b2 % 16 * 4 + b3 / 64) :: b64Char (b3 % 64) :: base64Encode rest

/-- `base64.StdEncoding.EncodeToString([]byte(s))`. -/
def base64EncodeStr (s : String) : String :=
  String.mk (base64Encode (strBytes s))

/-- Modelled from the spec: the fixed API version string that
`LegacyActionParams` (absent from src) attaches to every legacy
invocation; the test suite dispatches with version `"2011-08-01"`. -/
def apiVersion : String := "2011-08-01"

/-- Outcome of a CLI action: the request it issued, if any, and the
client-local error message, if any. -/
structure CliResult where
  request : Option HttpRequest
  error : Option String
deriving Repr

/-- `editScriptAction` from src/cmd/landscape-api/script.go (lines
149-183): validates the script-ID argument (missing, empty, or not an
integer is a client-local error and no request is issued), then
base64-encodes the code and dispatches the `EditScript` legacy action
with `title`, `code` and `script_id` parameters.  `title` is the
`--title` flag, `none` when omitted; `urfave/cli` resolves an unset
optional string flag to the empty string. -/
def editScriptAction (args : List String) (title : Option String)
    (code : String) : CliResult :=
  if args.isEmpty || args.headD "" == "" then
    { request := none
      error := some "script ID must be provided as the first argument" }
  else
    match atoi (args.headD "") with
    | none =>
        { request := none
          error := some "couldn't convert script ID to string" }
    | some scriptID =>
        { request := some (invokeLegacyRequest apiVersion "EditScript"
            [("title", [title.getD ""]),
             ("code", [base64EncodeStr code]),
             ("script_id", [toString scriptID])])
          error := none }

/-- `getScriptAction` from src/cmd/landscape-api/script.go (lines
185-208): validates the script-ID argument the same way, then issues a
GET for `/api/scripts/{id}`. -/
def getScriptAction (args : List String) : CliResult :=
  if args.isEmpty || args.headD "" == "" then
    { request := none
      error := some "script ID must be provided as the first argument" }
  else
    match atoi (args.headD "") with
    | none =>
        { request := none
          error := some "couldn't convert script ID to string" }
    | some scriptID =>
        { request := some
            { method := "GET"
              path := "/api/scripts/" ++ toString scriptID
              query := [] }
          error := none }

/-! ## Helper lemmas -/

lemma lookup_of_mem_nodup {l : List (String × List String)} {k : String}
    {v : List String} (h : (k, v) ∈ l) (hn : (l.map Prod.fst).Nodup) :
    l.lookup k = some v := by
  induction l with
  | nil => simp at h
  | cons p t ih =>
    obtain ⟨p1, p2⟩ := p
    rw [List.map_cons, List.nodup_cons] at hn
    rcases List.mem_cons.mp h with h1 | h1
    · rw [Prod.mk.injEq] at h1
      obtain ⟨rfl, rfl⟩ := h1
      simp [List.lookup_cons]
    · have hk : k ≠ p1 := by
        intro he
        have hmem := List.mem_map_of_mem Prod.fst h1
        exact hn.1 (he ▸ hmem)
      rw [List.lookup_cons]
      simp only [beq_eq_false_iff_ne.mpr hk]
      exact ih h1 hn.2

lemma eq_of_perm_sorted_nodupKeys :
    ∀ {l₁ l₂ : List (String × List String)}, l₁.Perm l₂ →
      l₁.Sorted entryKeyLe → l₂.Sorted entryKeyLe →
      (l₁.map Prod.fst).Nodup → l₁ = l₂ := by
  intro l₁
  induction l₁ with
  | nil =>
    intro l₂ hp _ _ _
    exact (hp.symm.eq_nil).symm ▸ rfl
  | cons a t₁ ih =>
    intro l₂ hp hs₁ hs₂ hn
    cases l₂ with
    | nil => exact absurd hp.eq_nil (by simp)
    | cons b t₂ =>
      rw [List.map_cons, List.nodup_cons] at hn
      have hab : a ∈ b :: t₂ := hp.subset (List.mem_cons_self a t₁)
      have hba : b ∈ a :: t₁ := hp.symm.subset (List.mem_cons_self b t₂)
      have hle1 : a.1 ≤ b.1 := by
        rcases List.mem_cons.mp hba with h | h
        · exact h ▸ le_refl _
        · exact List.rel_of_sorted_cons hs₁ b h
      have hle2 : b.1 ≤ a.1 := by
        rcases List.mem_cons.mp hab with h | h
        · exact h ▸ le_refl _
        · exact List.rel_of_sorted_cons hs₂ a h
      have hkey : a.1 = b.1 := le_antisymm hle1 hle2
      have hb : b = a := by
        rcases List.mem_cons.mp hba with h | h
        · exact h
        · exact absurd (hkey ▸ List.mem_map_of_mem Prod.fst h) hn.1
      subst hb
      have ht : t₁.Perm t₂ := hp.cons_inv
      rw [ih ht hs₁.of_cons hs₂.of_cons hn.2]

lemma hexVal_hexUpper (n : Nat) (h : n < 16) :
    hexVal (hexUpper n) = some n := by
  by_cases h10 : n < 10
  · have he : hexUpper n = 48 + n := by simp [hexUpper, h10]
    rw [he, hexVal, if_pos (by omega)]
    congr 1
    omega
  · have he : hexUpper n = 55 + n := by simp [hexUpper, h10]
    rw [he, hexVal, if_neg (by omega), if_pos (by omega)]
    congr 1
    omega

lemma queryUnescape_cons_escape (b : Nat) (hb : b < 256) (rest : List Nat) :
    queryUnescape (escapeByte b ++ rest) =
      (queryUnescape rest).map fun t => b :: t := by
  by_cases h32 : b = 32
  · subst h32
    rw [show escapeByte 32 = [43] from rfl, List.singleton_append,
      queryUnescape.eq_def]
    simp
  · by_cases hu : isUnreservedByte b
    · have hb37 : ¬b = 37 := by simp [isUnreservedByte] at hu; omega
      have hb43 : ¬b = 43 := by simp [isUnreservedByte] at hu; omega
      rw [show escapeByte b = [b] from by simp [escapeByte, h32, hu],
        List.singleton_append, queryUnescape.eq_def]
      simp [hb37, hb43]
    · have h1 : hexVal (hexUpper (b / 16)) = some (b / 16) :=
        hexVal_hexUpper _ (by omega)
      have h2 : hexVal (hexUpper (b % 16)) = some (b % 16) :=
        hexVal_hexUpper _ (by omega)
      have hdm : b / 16 * 16 + b % 16 = b := by omega
      rw [show escapeByte b = [37, hexUpper (b / 16), hexUpper (b % 16)] from by
          simp [escapeByte, h32, hu],
        queryUnescape.eq_def]
      simp [h1, h2, hdm]

lemma queryUnescape_queryEscapeBytes (bs : List Nat)
    (h : ∀ b ∈ bs, b < 256) :
    queryUnescape (queryEscapeBytes bs) = some bs := by
  induction bs with
  | nil => simp [queryEscapeBytes, queryUnescape]
  | cons b t ih =>
    have hb : b < 256 := h b (List.mem_cons_self b t)
    have ht := ih fun x hx => h x (List.mem_cons_of_mem _ hx)
    rw [queryEscapeBytes, List.flatMap_cons,
      queryUnescape_cons_escape b hb]
    rw [show t.flatMap escapeByte = queryEscapeBytes t from rfl, ht]
    rfl

lemma char_toNat_lt (c : Char) : c.toNat < 1114112 := by
  have h := c.valid
  rcases h with h | ⟨_, h2⟩
  · exact Nat.lt_trans h (by norm_num)
  · exact h2

lemma utf8EncodeChar_lt (c : Char) : ∀ b ∈ utf8EncodeChar c, b < 256 := by
  have hc := char_toNat_lt c
  intro b hb
  rw [utf8EncodeChar] at hb
  split_ifs at hb <;> simp at hb <;> omega

lemma strBytes_lt (s : String) : ∀ b ∈ strBytes s, b < 256 := by
  intro b hb
  rw [strBytes, List.mem_flatMap] at hb
  obtain ⟨c, _, hc⟩ := hb
  exact utf8EncodeChar_lt c b hc

/-! ## Claims -/

/-- C3: `AsV1Script` succeeds on every JSON payload whose mandatory
fields `id` and `title` are present and well-typed, even when the
payload is V2-shaped and lacks the V1-only fields `creator` and
`attachments`, leaving those at their zero value. -/
theorem c3_asV1Script_succeeds_on_mandatory_fields
    (fields : List (String × Json)) (i : Int) (t : String)
    (hid : fields.lookup "id" = some (.num i))
    (htitle : fields.lookup "title" = some (.str t))
    (hcreator : fields.lookup "creator" = none)
    (hatts : fields.lookup "attachments" = none) :
    asV1Script (.obj fields) =
      .ok { Id := i, Title := t, Creator := none, Attachments := none } := by
  rw [asV1Script, hid, htitle, hcreator, hatts]
  rfl

/-- C3 witness: on the payload `{"id":1,"title":"diagnostic script"}`
the decoder succeeds with `Id = 1` and `Title = "diagnostic
script"`. -/
theorem c3_witness :
    asV1Script (.obj [("id", .num 1), ("title", .str "diagnostic script")]) =
      .ok { Id := 1, Title := "diagnostic script"
            Creator := none, Attachments := none } :=
  c3_asV1Script_succeeds_on_mandatory_fields
    [("id", .num 1), ("title", .str "diagnostic script")] 1 "diagnostic script"
    rfl rfl rfl rfl

/-- C4: the attachment accessor succeeds exactly on bare JSON string
payloads, returning the string itself; `"note.txt"` yields
`"note.txt"`, and an object payload such as `{"id":1}` yields a
decode error. -/
theorem c4_asAttachment_bare_string_only :
    (∀ j : Json, (asLegacyScriptAttachment j).toBoolOk = j.isStr) ∧
    (∀ s, asLegacyScriptAttachment (.str s) = .ok s) ∧
    asLegacyScriptAttachment (.obj [("id", .num 1)]) =
      .error "json: cannot unmarshal payload into string" := by
  refine ⟨fun j => ?_, fun s => rfl, rfl⟩
  cases j <;> rfl

/-- C5: a 404 response with a JSON body decodes into an
`ErrorEnvelope` whose `message` field is character-for-character the
literal string sent by the server. -/
theorem c5_json404_message_literal (s : String) :
    getScriptAttachmentTyped
        { statusCode := 404, body := some (.obj [("message", .str s)]) } =
      .ok { statusCode := 404
            body := some (.obj [("message", .str s)])
            JSON200 := none
            JSON404 := some { message := some s } } := by
  rfl

/-- C6: a 204 response from the remove, archive and redact operations
carries an empty body, attempts no decode (`JSON200` is `nil`), and
returns no error. -/
theorem c6_status204_empty_no_decode (ps : List (String × List String)) :
    invokeLegacyActionTyped
        (legacyHandler (invokeLegacyRequest apiVersion "RemoveScript" ps)) =
      .ok { statusCode := 204, body := none, JSON200 := none, JSON404 := none } ∧
    invokeLegacyActionTyped
        (legacyHandler (invokeLegacyRequest apiVersion "RemoveScriptAttachment" ps)) =
      .ok { statusCode := 204, body := none, JSON200 := none, JSON404 := none } ∧
    archiveScriptTyped archiveHandlerResponse =
      .ok { statusCode := 204, body := none } ∧
    archiveScriptTyped redactHandlerResponse =
      .ok { statusCode := 204, body := none } := by
  exact ⟨rfl, rfl, rfl, rfl⟩

/-- C1: for every valid (non-empty) action name, non-empty version
string and caller-supplied parameter map (whose keys are distinct and
do not reuse the reserved names `version` and `action`), the single
POST issued by `InvokeLegacyAction` has query parameters that are
exactly the union of `{version, action}` and the caller map: each
parameter appears with its value, none is lost, and none appears more
than once. -/
theorem c1_invoke_query_is_union (version action : String)
    (params : List (String × List String))
    (_hv : version ≠ "") (_ha : action ≠ "")
    (hnd : (params.map Prod.fst).Nodup)
    (hver : "version" ∉ params.map Prod.fst)
    (hact : "action" ∉ params.map Prod.fst) :
    (invokeLegacyRequest version action params).method = "POST" ∧
    (invokeLegacyRequest version action params).query.lookup "version" =
      some [version] ∧
    (invokeLegacyRequest version action params).query.lookup "action" =
      some [action] ∧
    (∀ kv ∈ params,
      (invokeLegacyRequest version action params).query.lookup kv.1 =
        some kv.2) ∧
    ((invokeLegacyRequest version action params).query.map Prod.fst).Nodup ∧
    (invokeLegacyRequest version action params).query.map Prod.fst =
      "version" :: "action" :: params.map Prod.fst := by
  refine ⟨rfl, rfl, rfl, ?_, ?_, rfl⟩
  · intro kv hkv
    have h1 : kv.1 ≠ "version" := fun he =>
      hver (he ▸ List.mem_map_of_mem Prod.fst hkv)
    have h2 : kv.1 ≠ "action" := fun he =>
      hact (he ▸ List.mem_map_of_mem Prod.fst hkv)
    rw [show (invokeLegacyRequest version action params).query =
        ("version", [version]) :: ("action", [action]) :: params from rfl]
    rw [List.lookup_cons]
    simp only [beq_eq_false_iff_ne.mpr h1]
    rw [List.lookup_cons]
    simp only [beq_eq_false_iff_ne.mpr h2]
    exact lookup_of_mem_nodup hkv hnd
  · rw [show (invokeLegacyRequest version action params).query.map Prod.fst =
        "version" :: "action" :: params.map Prod.fst from rfl]
    rw [List.nodup_cons, List.nodup_cons]
    refine ⟨?_, hact, hnd⟩
    intro hmem
    rcases List.mem_cons.mp hmem with h | h
    · exact absurd h (by decide)
    · exact hver h

/-- C1 witness: concrete invocation with version `2011-08-01`, action
`CreateScript` and one caller parameter `title`. -/
theorem c1_witness :
    (invokeLegacyRequest "2011-08-01" "CreateScript"
        [("title", ["new script"])]).method = "POST" ∧
    (invokeLegacyRequest "2011-08-01" "CreateScript"
        [("title", ["new script"])]).query.lookup "version" =
      some ["2011-08-01"] ∧
    (invokeLegacyRequest "2011-08-01" "CreateScript"
        [("title", ["new script"])]).query.lookup "action" =
      some ["CreateScript"] ∧
    (invokeLegacyRequest "2011-08-01" "CreateScript"
        [("title", ["new script"])]).query.lookup "title" =
      some ["new script"] ∧
    ((invokeLegacyRequest "2011-08-01" "CreateScript"
        [("title", ["new script"])]).query.map Prod.fst).Nodup := by
  have h := c1_invoke_query_is_union "2011-08-01" "CreateScript"
    [("title", ["new script"])] (by decide) (by decide)
    (by simp) (by simp) (by simp)
  exact ⟨h.1, h.2.1, h.2.2.1,
    h.2.2.2.1 ("title", ["new script"]) (by simp), h.2.2.2.2.1⟩

/-- C2: `InvokeLegacyAction` returns an error exactly when the network
call fails — it hands back the transport's result unchanged — and it
does not pre-validate `version` or `action` locally: an empty value is
sent to the server, whose HTTP 400 comes back as the raw response
status with a nil error. -/
theorem c2_error_iff_network_failure
    (net : HttpRequest → Except String HttpResponse)
    (version action : String) (ps : List (String × List String)) :
    invokeLegacyAction net version action ps =
      net (invokeLegacyRequest version action ps) ∧
    invokeLegacyAction (fun r => .ok (legacyHandler r)) "" action ps =
      .ok { statusCode := 400, body := none } ∧
    (version ≠ "" →
      invokeLegacyAction (fun r => .ok (legacyHandler r)) version "" ps =
        .ok { statusCode := 400, body := none }) := by
  refine ⟨rfl, rfl, fun hv => ?_⟩
  simp only [invokeLegacyAction, invokeLegacyRequest, legacyHandler]
  rw [show queryGet (("version", [version]) :: ("action", [""]) :: ps)
      "version" = version from rfl]
  rw [show queryGet (("version", [version]) :: ("action", [""]) :: ps)
      "action" = "" from rfl]
  rw [if_neg hv, if_pos rfl]

/-- C2 witness: with a non-empty version and empty action the server's
400 is surfaced as the raw status code, with no client error. -/
theorem c2_witness :
    invokeLegacyAction (fun r => .ok (legacyHandler r)) "2011-08-01" "" [] =
      .ok { statusCode := 400, body := none } :=
  (c2_error_iff_network_failure (fun r => .ok (legacyHandler r))
    "2011-08-01" "" []).2.2 (by decide)

/-- C7: the query encoder is total — it is a function on all parameter
maps, including empty strings and arbitrary pre-encoded values — and
deterministic: two representations of the identical input map (the
same entries in any order, keys distinct as in a Go map) encode to the
identical output. -/
theorem c7_encoder_deterministic (l₁ l₂ : List (String × List String))
    (hp : l₁.Perm l₂) (hn : (l₁.map Prod.fst).Nodup) :
    encodeQuery l₁ = encodeQuery l₂ := by
  have hs₁ := List.sorted_insertionSort entryKeyLe l₁
  have hs₂ := List.sorted_insertionSort entryKeyLe l₂
  have hperm : (List.insertionSort entryKeyLe l₁).Perm
      (List.insertionSort entryKeyLe l₂) :=
    (List.perm_insertionSort entryKeyLe l₁).trans
      (hp.trans (List.perm_insertionSort entryKeyLe l₂).symm)
  have hnod : ((List.insertionSort entryKeyLe l₁).map Prod.fst).Nodup :=
    ((List.perm_insertionSort entryKeyLe l₁).map Prod.fst).nodup_iff.mpr hn
  rw [encodeQuery, encodeQuery,
    eq_of_perm_sorted_nodupKeys hperm hs₁ hs₂ hnod]

/-- C7 witness: the two orderings of the map
`{title: new script, code: ZWNobyAiSGVsbG8i}` encode identically. -/
theorem c7_witness :
    encodeQuery [("title", ["new script"]), ("code", ["ZWNobyAiSGVsbG8i"])] =
      encodeQuery [("code", ["ZWNobyAiSGVsbG8i"]), ("title", ["new script"])] :=
  c7_encoder_deterministic _ _
    (List.Perm.swap ("code", ["ZWNobyAiSGVsbG8i"]) ("title", ["new script"]) [])
    (by simp)

/-- C8: round-trip — encoding a parameter map places each value
percent-escaped after its key's `=`, and percent-decoding an escaped
value recovers content byte-identical to the caller's original
value. -/
theorem c8_roundtrip (k v : String) :
    encodeQuery [(k, [v])] = queryEscapeStr k ++ 61 :: queryEscapeStr v ∧
    queryUnescape (queryEscapeStr v) = some (strBytes v) := by
  constructor
  · rw [encodeQuery]
    simp [encodeEntry, encodePair, List.intercalate]
  · exact queryUnescape_queryEscapeBytes _ (strBytes_lt v)

/-- C9: the CLI `script edit` and `script get` commands return a
client-local validation error, issuing no request, whenever the script
ID argument is missing, empty, or not parseable as an integer. -/
theorem c9_cli_validates_script_id (args : List String)
    (title : Option String) (code : String)
    (h : args = [] ∨ args.headD "" = "" ∨ atoi (args.headD "") = none) :
    ((editScriptAction args title code).request = none ∧
      (editScriptAction args title code).error.isSome = true) ∧
    ((getScriptAction args).request = none ∧
      (getScriptAction args).error.isSome = true) := by
  rcases h with h | h | h
  · subst h
    exact ⟨⟨rfl, rfl⟩, ⟨rfl, rfl⟩⟩
  · have hc : (args.isEmpty || (args.headD "" == "")) = true := by
      rw [h]
      simp
    rw [editScriptAction, if_pos hc, getScriptAction, if_pos hc]
    exact ⟨⟨rfl, rfl⟩, ⟨rfl, rfl⟩⟩
  · by_cases hc : (args.isEmpty || (args.headD "" == "")) = true
    · rw [editScriptAction, if_pos hc, getScriptAction, if_pos hc]
      exact ⟨⟨rfl, rfl⟩, ⟨rfl, rfl⟩⟩
    · rw [editScriptAction, if_neg hc, getScriptAction, if_neg hc, h]
      exact ⟨⟨rfl, rfl⟩, ⟨rfl, rfl⟩⟩

/-- C9 witness: a non-numeric script ID argument is rejected locally
with no request issued. -/
theorem c9_witness :
    ((editScriptAction ["abc"] none "").request = none ∧
      (editScriptAction ["abc"] none "").error.isSome = true) ∧
    ((getScriptAction ["abc"]).request = none ∧
      (getScriptAction ["abc"]).error.isSome = true) :=
  c9_cli_validates_script_id ["abc"] none "" (Or.inr (Or.inr (by decide)))

/-- C10: every request issued by the CLI `script edit` command carries
a `title` query parameter; when the optional `--title` flag is omitted
the parameter is still sent, with the empty string as its value. -/
theorem c10_edit_always_sends_title (args : List String)
    (title : Option String) (code : String) (n : Int)
    (hne : args.headD "" ≠ "") (hat : atoi (args.headD "") = some n) :
    ((editScriptAction args title code).request.map
        fun r => r.query.lookup "title") = some (some [title.getD ""]) ∧
    ((editScriptAction args none code).request.map
        fun r => r.query.lookup "title") = some (some [""]) := by
  have hemp : args.isEmpty = false := by
    cases args with
    | nil => exact absurd rfl hne
    | cons a t => rfl
  have hc : ¬(args.isEmpty || (args.headD "" == "")) = true := by
    rw [hemp, beq_eq_false_iff_ne.mpr hne]
    simp
  constructor
  · rw [editScriptAction, if_neg hc, hat]
    rfl
  · rw [editScriptAction, if_neg hc, hat]
    rfl

/-- C10 witness: with script ID `5`, the `title` parameter is present
with the flag's value, and with the empty string when the flag is
omitted. -/
theorem c10_witness :
    ((editScriptAction ["5"] (some "x") "").request.map
        fun r => r.query.lookup "title") = some (some ["x"]) ∧
    ((editScriptAction ["5"] none "").request.map
        fun r => r.query.lookup "title") = some (some [""]) :=
  c10_edit_always_sends_title ["5"] (some "x") "" 5 (by decide) (by decide)
